import Mathlib

/-!
# Verification of the AI image-renamer backend (`backend/main.py`)

This file is a shallow embedding of the session-scoped workflow implemented in
`backend/main.py`, together with theorems settling the specification claims.

Modelling conventions:

* Python dicts keyed by strings (the global `sessions` registry, the per-session
  `images` mapping, and the filesystem) are association lists with first-match
  lookup; dict assignment is cons (which shadows any earlier binding), and
  `del` / `shutil.rmtree` filter entries out.
* The filesystem is a map from path to `FileContent`; regular files carry their
  bytes as an opaque `String`, and the archive written by `zipfile.ZipFile` is
  stored as its ordered entry list.
* Every route handler in the source wraps its whole body in
  `try: ... except Exception as e: raise HTTPException(status_code=500, ...)`.
  Since FastAPI's `HTTPException` is a subclass of `Exception`, an
  `HTTPException(404)` raised inside the body is caught by that handler and
  re-raised as a 500 whose detail embeds `str(e) = "{status_code}: {detail}"`.
  `wrapEndpoint` reproduces this faithfully.
* The external captioning pipeline (`analyze_single_image`: file check, PIL
  decode, Gemini call) is an oracle `env : String → Nat × Except String String`
  assigning to each image id the wall-clock duration of its unit of work and
  its outcome (`.ok suggested_name`, or `.error msg` for the message of the
  exception it raises).
* The concurrency of `analyze_images` is given a deterministic timing
  semantics: `ThreadPoolExecutor(max_workers=3)` runs the submitted tasks FIFO
  on three workers (`schedule`); the collection loop calls
  `task.result(timeout=60)` on each task in submission order, advancing a
  wall-clock `t` (`collectFlags`: a task whose finish time exceeds `t + 60`
  raises `TimeoutError`, whose `str` is the empty string, at `t + 60`);
  finally the `with`-block exit calls `executor.shutdown(wait=True)`, which
  joins all worker threads, so the handler returns at
  `max (collection end) (latest finish time)`.  The returned `Nat` of
  `analyze_images` is this elapsed wall-clock time of the handler.
-/

/-- First-match lookup in an association list (Python dict lookup). -/
def lookupA {α : Type} : List (String × α) → String → Option α
  | [], _ => none
  | (k, v) :: rest, key => if k = key then some v else lookupA rest key

/-- `list.startswith(prefixChars)` on exploded strings. -/
def isPrefixList : List Char → List Char → Bool
  | [], _ => true
  | _ :: _, [] => false
  | a :: as, b :: bs => a = b && isPrefixList as bs

/-- `s.startswith(p)` for strings (used for the content-type policy and rmtree). -/
def startsWithStr (s p : String) : Bool := isPrefixList p.toList s.toList

/-- The characters of the last `/`-separated component of a path
(`pathlib.PurePath.name`); `cur` accumulates the current component reversed. -/
def lastComponentAux : List Char → List Char → List Char
  | cur, [] => cur.reverse
  | cur, c :: rest => if c = '/' then lastComponentAux [] rest else lastComponentAux (c :: cur) rest

/-- Index of the last occurrence of `c`, as in Python's `str.rfind`. -/
def rfindIdx (c : Char) : List Char → Option Nat
  | [] => none
  | x :: xs =>
    match rfindIdx c xs with
    | some i => some (i + 1)
    | none => if x = c then some 0 else none

/-- `pathlib.PurePath(p).suffix`: the extension (with dot) of the last path
component, empty unless the last dot's index `i` satisfies `0 < i < len - 1`. -/
def pathSuffix (p : String) : String :=
  let name := lastComponentAux [] p.toList
  match rfindIdx '.' name with
  | some i => if 0 < i ∧ i + 1 < name.length then String.mk (name.drop i) else ""
  | none => ""

/-- `str.lower()` restricted to what the source applies it to (file extensions). -/
def toLowerStr (s : String) : String := String.mk (s.toList.map Char.toLower)

/-- `dir / name` path join. -/
def joinPath (dir name : String) : String := dir ++ "/" ++ name

/-- A raised `fastapi.HTTPException` (status code and detail). -/
structure HTTPErr where
  status_code : Nat
  detail : String
deriving DecidableEq

/-- `str(e)` of a `starlette` `HTTPException`: `f"{status_code}: {detail}"`. -/
def httpExcStr (e : HTTPErr) : String := toString e.status_code ++ ": " ++ e.detail

/-- An exception escaping a handler body: either an `HTTPException` raised by the
handler itself or some other Python exception carrying its message. -/
inductive BodyErr where
  | http (e : HTTPErr)
  | exc (msg : String)
deriving DecidableEq

/-- The `try: ... except Exception as e: raise HTTPException(500, prefix + str(e))`
wrapper every route handler uses.  Note it catches the handler's own
`HTTPException(404)` (an `Exception` subclass) and converts it to a 500. -/
def wrapEndpoint {α : Type} (pre : String) : Except BodyErr α → Except HTTPErr α
  | .ok a => .ok a
  | .error (.http e) => .error ⟨500, pre ++ httpExcStr e⟩
  | .error (.exc m) => .error ⟨500, pre ++ m⟩

/-- Contents of a file on disk: raw bytes, or the archive written by
`zipfile.ZipFile` recorded as its ordered entry list. -/
inductive FileContent where
  | bytes (data : String)
  | zip (entries : List (String × String))
deriving DecidableEq

/-- The filesystem: association from path to content, first match wins. -/
abbrev FS : Type := List (String × FileContent)

/-- Writing a file (open-for-write / `shutil.copy2` target / zip creation). -/
def fsWrite (fs : FS) (p : String) (c : FileContent) : FS := (p, c) :: fs

/-- `shutil.rmtree(dir)`: drop every path under `dir`. -/
def removeTree (fs : FS) (dir : String) : FS :=
  fs.filter (fun e => ¬ startsWithStr e.1 (dir ++ "/"))

/-- Read raw bytes at a path (what `zipf.write` and `copy2` consume). -/
def bytesAt (fs : FS) (p : String) : Option String :=
  match lookupA fs p with
  | some (.bytes d) => some d
  | _ => none

/-- The `ImageInfo` pydantic model, stored as a dict in the session; the
`error` key is absent (`none`) until analysis fails for the image. -/
structure ImageInfo where
  id : String
  original_name : String
  suggested_name : String
  file_path : String
  size : Nat
  status : String
  error : Option String
deriving DecidableEq

/-- A per-session `session_data` dict: `images`, `status`, and the `zip_path`
key added by a successful rename. -/
structure SessionData where
  images : List (String × ImageInfo)
  status : String
  zip_path : Option String
deriving DecidableEq

/-- The global in-memory `sessions` registry. -/
abbrev Sessions : Type := List (String × SessionData)

/-- One element of `rename_request.images`: `{"id": ..., "new_name": ...}`. -/
structure Selection where
  id : String
  new_name : String
deriving DecidableEq

/-- The `RenameRequest` body. -/
structure RenameRequest where
  images : List Selection
deriving DecidableEq

/-- One element of the `renamed_images` list built by `rename_images`. -/
structure RenamedImage where
  id : String
  original_name : String
  new_name : String
  file_path : String
deriving DecidableEq

/-- Response of `POST /upload`. -/
structure UploadResponse where
  session_id : String
  images : List ImageInfo
  total_count : Nat
deriving DecidableEq

/-- Response of `POST /analyze/{session_id}`. -/
structure AnalyzeResponse where
  session_id : String
  images : List ImageInfo
  status : String
deriving DecidableEq

/-- Response of `POST /rename/{session_id}`. -/
structure RenameResponse where
  session_id : String
  renamed_images : List RenamedImage
  download_ready : Bool
deriving DecidableEq

/-- Response of `GET /session/{session_id}`. -/
structure StatusResponse where
  session_id : String
  status : String
  images : List ImageInfo
  total_count : Nat
deriving DecidableEq

/-- The `FileResponse` served by `GET /download/{session_id}`. -/
structure FileResponseData where
  path : String
  media_type : String
  filename : String
deriving DecidableEq

/-- An uploaded multipart file: client filename, declared content type
(`none` when the part carries no content type), and its bytes. -/
structure UploadFileIn where
  filename : String
  content_type : Option String
  content : String
deriving DecidableEq

/-- The upload filter `file.content_type and file.content_type.startswith('image/')`
(an absent or empty content type is falsy and skipped). -/
def isImageFile (f : UploadFileIn) : Bool :=
  match f.content_type with
  | none => false
  | some ct => startsWithStr ct "image/"

/-- The per-file loop of `upload_images`: skip non-image files, give each
accepted file a fresh id (`gen n` models `uuid.uuid4()`), stage its bytes at
`{sessionDir}/{file_id}{ext}` with the extension lower-cased, and record its
`ImageInfo` with `size` read back from the written file. -/
def uploadLoop (gen : Nat → String) (sessionDir : String) :
    Nat → FS → List UploadFileIn → FS × List ImageInfo × Nat
  | n, fs, [] => (fs, [], n)
  | n, fs, f :: rest =>
    if isImageFile f then
      let fid := gen n
      let ext := toLowerStr (pathSuffix f.filename)
      let path := joinPath sessionDir (fid ++ ext)
      let info : ImageInfo :=
        ⟨fid, f.filename, "", path, f.content.length, "pending", none⟩
      let r := uploadLoop gen sessionDir (n + 1) (fsWrite fs path (.bytes f.content)) rest
      (r.1, info :: r.2.1, r.2.2)
    else uploadLoop gen sessionDir n fs rest

/-- `POST /upload`: creates a fresh session (id `sid`, drawn like the file ids
from the `uuid4` entropy source), stages all accepted files, registers the
session with status `uploaded`, and returns the accepted records.  The body
cannot raise in this model, so the `except` wrapper is the identity. -/
def upload_images (gen : Nat → String) (sid : String) (fs : FS) (sessions : Sessions)
    (files : List UploadFileIn) : FS × Sessions × UploadResponse :=
  let r := uploadLoop gen (joinPath "uploads" sid) 0 fs files
  (r.1, (sid, ⟨r.2.1.map (fun i => (i.id, i)), "uploaded", none⟩) :: sessions,
    ⟨sid, r.2.1, r.2.1.length⟩)

/-- Body of `GET /session/{session_id}`. -/
def sessionStatusBody (sessions : Sessions) (sid : String) : Except BodyErr StatusResponse :=
  match lookupA sessions sid with
  | none => .error (.http ⟨404, "Session not found"⟩)
  | some sd => .ok ⟨sid, sd.status, sd.images.map Prod.snd, sd.images.length⟩

/-- `GET /session/{session_id}` with its exception wrapper. -/
def get_session_status (sessions : Sessions) (sid : String) : Except HTTPErr StatusResponse :=
  wrapEndpoint "Failed to get session status: " (sessionStatusBody sessions sid)

/-- Body of `DELETE /session/{session_id}`: remove the session's upload and
processed directories and drop it from the registry. -/
def cleanupBody (fs : FS) (sessions : Sessions) (sid : String) :
    Except BodyErr (FS × Sessions × String) :=
  match lookupA sessions sid with
  | none => .error (.http ⟨404, "Session not found"⟩)
  | some _ =>
    .ok (removeTree (removeTree fs (joinPath "uploads" sid)) (joinPath "processed" sid),
      sessions.filter (fun e => ¬ e.1 = sid), "Session cleaned up successfully")

/-- `DELETE /session/{session_id}` with its exception wrapper. -/
def cleanup_session (fs : FS) (sessions : Sessions) (sid : String) :
    Except HTTPErr (FS × Sessions × String) :=
  wrapEndpoint "Cleanup failed: " (cleanupBody fs sessions sid)

/-- Body of `GET /download/{session_id}`: 404 if the session is unknown, has no
recorded `zip_path`, or the archive file is missing; otherwise a `FileResponse`
with the fixed download name and media type. -/
def downloadBody (fs : FS) (sessions : Sessions) (sid : String) :
    Except BodyErr FileResponseData :=
  match lookupA sessions sid with
  | none => .error (.http ⟨404, "Session not found"⟩)
  | some sd =>
    match sd.zip_path with
    | none => .error (.http ⟨404, "No processed files found"⟩)
    | some zp =>
      if (lookupA fs zp).isSome then .ok ⟨zp, "application/zip", "renamed_images.zip"⟩
      else .error (.http ⟨404, "Download file not found"⟩)

/-- `GET /download/{session_id}` with its exception wrapper. -/
def download_renamed_images (fs : FS) (sessions : Sessions) (sid : String) :
    Except HTTPErr FileResponseData :=
  wrapEndpoint "Download failed: " (downloadBody fs sessions sid)

/-- Minimum of a worker-availability list (the next worker to free up). -/
def minList : List Nat → Nat
  | [] => 0
  | x :: xs => xs.foldl Nat.min x

/-- Maximum of a list of times. -/
def maxList (l : List Nat) : Nat := l.foldr Nat.max 0

/-- Replace the first occurrence of `m` by `v` (the freed worker picks up the
next queued task). -/
def replaceFirst : List Nat → Nat → Nat → List Nat
  | [], _, _ => []
  | x :: xs, m, v => if x = m then v :: xs else x :: replaceFirst xs m v

/-- FIFO scheduling of task durations on a pool of workers whose current
availability times are `avail` (`ThreadPoolExecutor(max_workers=3)` starts as
`[0, 0, 0]`): each task starts on the earliest-free worker and its finish time
is start + duration.  Returns the finish times in submission order. -/
def schedule (avail : List Nat) : List Nat → List Nat
  | [] => []
  | d :: ds =>
    (minList avail + d) :: schedule (replaceFirst avail (minList avail) (minList avail + d)) ds

/-- The result-collection loop over the submitted tasks in submission order:
given the current wall-clock `t` and the tasks' finish times, each
`task.result(timeout=60)` call either obtains the result (flag `false`),
advancing `t` to `max t finish`, or raises `TimeoutError` at `t + 60`
(flag `true`).  Returns the timeout flags and the loop's end time. -/
def collectFlags : Nat → List Nat → List Bool × Nat
  | t, [] => ([], t)
  | t, f :: fs =>
    if f ≤ t + 60 then
      ((collectFlags (Nat.max t f) fs).1.cons false, (collectFlags (Nat.max t f) fs).2)
    else
      ((collectFlags (t + 60) fs).1.cons true, (collectFlags (t + 60) fs).2)

/-- In-place update of the session's image records by the collection loop:
on timeout the record gets `status = "error"` and `error = str(TimeoutError())`,
which is the empty string; on a captioning failure it gets `status = "error"`
and the exception's message; on success `suggested_name` is set and
`status = "analyzed"`. -/
def applyResults (env : String → Nat × Except String String) :
    List (String × ImageInfo) → List Bool → List (String × ImageInfo)
  | [], _ => []
  | _ :: _, [] => []
  | (iid, info) :: rest, b :: bs =>
    (iid,
      if b then { info with status := "error", error := some "" }
      else
        match (env iid).2 with
        | .ok name => { info with suggested_name := name, status := "analyzed" }
        | .error msg => { info with status := "error", error := some msg }) ::
      applyResults env rest bs

/-- Durations of the session's units of work, in submission (= insertion) order. -/
def analysisDurations (env : String → Nat × Except String String) (sd : SessionData) :
    List Nat := sd.images.map (fun p => (env p.1).1)

/-- Finish times of the session's tasks on the 3-worker pool. -/
def analysisFinishes (env : String → Nat × Except String String) (sd : SessionData) :
    List Nat := schedule [0, 0, 0] (analysisDurations env sd)

/-- Timeout flags of the collection loop. -/
def analysisFlags (env : String → Nat × Except String String) (sd : SessionData) :
    List Bool := (collectFlags 0 (analysisFinishes env sd)).1

/-- Wall-clock time at which the collection loop finishes. -/
def analysisEnd (env : String → Nat × Except String String) (sd : SessionData) : Nat :=
  (collectFlags 0 (analysisFinishes env sd)).2

/-- The session's image records after the collection loop. -/
def analysisImages (env : String → Nat × Except String String) (sd : SessionData) :
    List (String × ImageInfo) := applyResults env sd.images (analysisFlags env sd)

/-- Wall-clock duration of the whole `analyze_images` handler: the `with`-block
exit joins all workers (`executor.shutdown(wait=True)`), so the handler returns
only once both the collection loop and every worker are done. -/
def analysisElapsed (env : String → Nat × Except String String) (sd : SessionData) : Nat :=
  Nat.max (analysisEnd env sd) (maxList (analysisFinishes env sd))

/-- Body of `POST /analyze/{session_id}`: 404 for an unknown session, 500 when
the captioning model was never configured; otherwise update every image record
in place, set the session status to `"analyzed"` (unconditionally), and return
the updated records (the response's own `status` field is the literal
`"completed"`).  The extra `Nat` is the handler's elapsed wall-clock time. -/
def analyzeBody (env : String → Nat × Except String String) (modelOk : Bool)
    (sessions : Sessions) (sid : String) :
    Except BodyErr (Sessions × AnalyzeResponse × Nat) :=
  match lookupA sessions sid with
  | none => .error (.http ⟨404, "Session not found"⟩)
  | some sd =>
    if modelOk then
      .ok ((sid, { sd with images := analysisImages env sd, status := "analyzed" }) :: sessions,
        ⟨sid, (analysisImages env sd).map Prod.snd, "completed"⟩,
        analysisElapsed env sd)
    else .error (.http ⟨500, "AI model not configured properly"⟩)

/-- `POST /analyze/{session_id}` with its exception wrapper. -/
def analyze_images (env : String → Nat × Except String String) (modelOk : Bool)
    (sessions : Sessions) (sid : String) :
    Except HTTPErr (Sessions × AnalyzeResponse × Nat) :=
  wrapEndpoint "Analysis failed: " (analyzeBody env modelOk sessions sid)

/-- The per-session output directory `PROCESSED_DIR / session_id`. -/
def processedDirOf (sid : String) : String := joinPath "processed" sid

/-- The archive path `processed_dir / "renamed_images.zip"`. -/
def zipPathOf (sid : String) : String := joinPath (processedDirOf sid) "renamed_images.zip"

/-- The per-selection loop of `rename_images`: selections whose id is not in
the session are skipped with a warning; for the rest the staged file is copied
(`shutil.copy2`, which raises if the source is missing) to
`processed_dir / (new_name + original_extension)`, and an export record is
accumulated. -/
def renameLoop (images : List (String × ImageInfo)) (processedDir : String) :
    FS → List Selection → Except String (FS × List RenamedImage)
  | fs, [] => .ok (fs, [])
  | fs, sel :: rest =>
    match lookupA images sel.id with
    | none => renameLoop images processedDir fs rest
    | some info =>
      match lookupA fs info.file_path with
      | none => .error ("copy failed: " ++ info.file_path)
      | some c =>
        match renameLoop images processedDir
            (fsWrite fs (joinPath processedDir (sel.new_name ++ pathSuffix info.file_path)) c) rest with
        | .error m => .error m
        | .ok (fs', out) =>
          .ok (fs', ⟨sel.id, info.original_name, sel.new_name ++ pathSuffix info.file_path,
            joinPath processedDir (sel.new_name ++ pathSuffix info.file_path)⟩ :: out)

/-- The zip-creation loop: `zipf.write(image["file_path"], image["new_name"])`
reads each exported file's current bytes and appends an archive entry under the
chosen display name (duplicate names yield duplicate entries). -/
def buildZipEntries (fs : FS) : List (String × String) → Except String (List (String × String))
  | [] => .ok []
  | (path, arc) :: rest =>
    match bytesAt fs path with
    | none => .error ("zip write failed: " ++ path)
    | some d =>
      match buildZipEntries fs rest with
      | .error m => .error m
      | .ok es => .ok ((arc, d) :: es)

/-- Reading an entry from the written archive: `ZipFile.read(name)` resolves a
name through `NameToInfo`, where the last entry with a given name wins. -/
def zipExtract (n : String) : List (String × String) → Option String
  | [] => none
  | e :: rest =>
    match zipExtract n rest with
    | some d => some d
    | none => if e.1 = n then some e.2 else none

/-- Body of `POST /rename/{session_id}`: 404 for an unknown session; otherwise
run the copy loop, write the archive of all export records at the session's
deterministic archive path, mark the session `completed` with the recorded
`zip_path`, and return the export records with `download_ready = True`. -/
def renameBody (fs : FS) (sessions : Sessions) (sid : String) (req : RenameRequest) :
    Except BodyErr (FS × Sessions × RenameResponse) :=
  match lookupA sessions sid with
  | none => .error (.http ⟨404, "Session not found"⟩)
  | some sd =>
    match renameLoop sd.images (processedDirOf sid) fs req.images with
    | .error m => .error (.exc m)
    | .ok (fs', renamed) =>
      match buildZipEntries fs' (renamed.map (fun r => (r.file_path, r.new_name))) with
      | .error m => .error (.exc m)
      | .ok entries =>
        .ok (fsWrite fs' (zipPathOf sid) (.zip entries),
          (sid, { sd with status := "completed", zip_path := some (zipPathOf sid) }) :: sessions,
          ⟨sid, renamed, true⟩)

/-- `POST /rename/{session_id}` with its exception wrapper. -/
def rename_images (fs : FS) (sessions : Sessions) (sid : String) (req : RenameRequest) :
    Except HTTPErr (FS × Sessions × RenameResponse) :=
  wrapEndpoint "Rename failed: " (renameBody fs sessions sid req)

/-- The selections of a rename request that match an image of the session,
paired with the matched record (the ones the loop actually processes). -/
def procSels (images : List (String × ImageInfo)) (sels : List Selection) :
    List (Selection × ImageInfo) :=
  sels.filterMap (fun s => (lookupA images s.id).map (fun info => (s, info)))

/-- The archive display name a processed selection produces:
`new_name + original extension of the staged file`. -/
def entryName (pr : Selection × ImageInfo) : String :=
  pr.1.new_name ++ pathSuffix pr.2.file_path

/-- The export path a processed selection is copied to. -/
def entryPathOf (pd : String) (pr : Selection × ImageInfo) : String :=
  joinPath pd (entryName pr)

/-- The export record a processed selection contributes. -/
def mkRenamed (pd : String) (pr : Selection × ImageInfo) : RenamedImage :=
  ⟨pr.1.id, pr.2.original_name, entryName pr, entryPathOf pd pr⟩

/-- The last processed selection producing the display name `n` (the one whose
bytes win both the on-disk copy and the archive-entry resolution). -/
def lastWithName (n : String) : List (Selection × ImageInfo) → Option (Selection × ImageInfo)
  | [] => none
  | pr :: rest =>
    match lastWithName n rest with
    | some q => some q
    | none => if entryName pr = n then some pr else none

/-- The source path of the last zip input carrying arcname `n`. -/
def lastArc (n : String) : List (String × String) → Option String
  | [] => none
  | i :: rest =>
    match lastArc n rest with
    | some p => some p
    | none => if i.2 = n then some i.1 else none

/-- Projection: the HTTP status code when a handler failed. -/
def statusCodeOf {α : Type} : Except HTTPErr α → Option Nat
  | .error e => some e.status_code
  | .ok _ => none

/-- Projection: the status of session `sid` in a registry. -/
def sessionStatusIn (sessions : Sessions) (sid : String) : Option String :=
  (lookupA sessions sid).map (fun sd => sd.status)

/-- Projection: status of the image with id `iid` in a response image list. -/
def findStatus : List ImageInfo → String → Option String
  | [], _ => none
  | i :: rest, iid => if i.id = iid then some i.status else findStatus rest iid

/-- Projection: status of image `iid` in a successful analyze response. -/
def respStatusOf (r : Except HTTPErr (Sessions × AnalyzeResponse × Nat)) (iid : String) :
    Option String :=
  match r with
  | .ok (_, resp, _) => findStatus resp.images iid
  | .error _ => none

/-- Projection: elapsed wall-clock time of a successful analyze call. -/
def elapsedOf (r : Except HTTPErr (Sessions × AnalyzeResponse × Nat)) : Option Nat :=
  match r with
  | .ok (_, _, el) => some el
  | .error _ => none

/-- Projection: the display names in a successful rename response. -/
def renamedNamesOf (r : Except HTTPErr (FS × Sessions × RenameResponse)) : Option (List String) :=
  match r with
  | .ok (_, _, resp) => some (resp.renamed_images.map (fun x => x.new_name))
  | .error _ => none

/-- Projection: the archive entries written at `zp` by a successful rename. -/
def zipEntriesOf (r : Except HTTPErr (FS × Sessions × RenameResponse)) (zp : String) :
    Option (List (String × String)) :=
  match r with
  | .ok (fs, _, _) =>
    match lookupA fs zp with
    | some (.zip es) => some es
    | _ => none
  | .error _ => none

/-- Rank of the coarse session phases, for stating the forward-only invariant. -/
def phaseRank (s : String) : Nat :=
  if s = "uploaded" then 0 else if s = "analyzed" then 1 else if s = "completed" then 2 else 0

/-- Entropy source used by the concrete runs (models `uuid.uuid4()`). -/
def genId (n : Nat) : String := "file" ++ toString n

/-- C2 concrete run: upload an empty batch into an empty registry as session `s`. -/
def c2Upload : FS × Sessions × UploadResponse := upload_images genId "s" [] [] []

/-- C2 concrete run: rename with an empty selection list (session becomes `completed`). -/
def c2Rename : Except HTTPErr (FS × Sessions × RenameResponse) :=
  rename_images c2Upload.1 c2Upload.2.1 "s" ⟨[]⟩

/-- C2: session status right after the rename. -/
def c2StatusAfterRename : Option String :=
  match c2Rename with
  | .ok (_, ss, _) => sessionStatusIn ss "s"
  | .error _ => none

/-- C2: session status after invoking analyze on the completed session. -/
def c2StatusAfterAnalyze : Option String :=
  match c2Rename with
  | .ok (_, ss, _) =>
    match analyze_images (fun _ => (0, Except.ok "x")) true ss "s" with
    | .ok (ss2, _, _) => sessionStatusIn ss2 "s"
    | .error _ => none
  | .error _ => none

/-- A staged image record used by the concrete analyze runs. -/
def mkStagedInfo (iid oname fp : String) : ImageInfo :=
  ⟨iid, oname, "", fp, 3, "pending", none⟩

/-- C3 concrete session: two images. -/
def c3Sessions : Sessions :=
  [("s", ⟨[("i1", mkStagedInfo "i1" "a.jpg" "uploads/s/i1.jpg"),
           ("i2", mkStagedInfo "i2" "b.jpg" "uploads/s/i2.jpg")], "uploaded", none⟩)]

/-- C3 oracle: image `i1` takes 100 s, image `i2` takes 70 s, both succeed. -/
def c3Env (i : String) : Nat × Except String String :=
  if i = "i1" then (100, Except.ok "first") else (70, Except.ok "second")

/-- C3 concrete analyze run. -/
def c3Run : Except HTTPErr (Sessions × AnalyzeResponse × Nat) :=
  analyze_images c3Env true c3Sessions "s"

/-- C5 concrete session: four images on the 3-worker pool. -/
def c5Sessions : Sessions :=
  [("s", ⟨[("i1", mkStagedInfo "i1" "a.jpg" "uploads/s/i1.jpg"),
           ("i2", mkStagedInfo "i2" "b.jpg" "uploads/s/i2.jpg"),
           ("i3", mkStagedInfo "i3" "c.jpg" "uploads/s/i3.jpg"),
           ("i4", mkStagedInfo "i4" "d.jpg" "uploads/s/i4.jpg")], "uploaded", none⟩)]

/-- C5 oracle with image `i1` hanging past the timeout (its work "fails"). -/
def c5EnvSlow (i : String) : Nat × Except String String :=
  if i = "i1" then (1000, Except.ok "one")
  else if i = "i4" then (66, Except.ok "four")
  else (55, Except.ok "other")

/-- C5 baseline oracle, identical except image `i1` finishes quickly. -/
def c5EnvFast (i : String) : Nat × Except String String :=
  if i = "i1" then (1, Except.ok "one")
  else if i = "i4" then (66, Except.ok "four")
  else (55, Except.ok "other")

/-- C5 concrete run with the hanging first image. -/
def c5RunSlow : Except HTTPErr (Sessions × AnalyzeResponse × Nat) :=
  analyze_images c5EnvSlow true c5Sessions "s"

/-- C5 concrete baseline run. -/
def c5RunFast : Except HTTPErr (Sessions × AnalyzeResponse × Nat) :=
  analyze_images c5EnvFast true c5Sessions "s"

/-- C6 concrete session: two distinct staged images. -/
def c6Sessions : Sessions :=
  [("s", ⟨[("idA", mkStagedInfo "idA" "cat.jpg" "uploads/s/idA.jpg"),
           ("idB", mkStagedInfo "idB" "dog.jpg" "uploads/s/idB.jpg")], "analyzed", none⟩)]

/-- C6 concrete filesystem: the two staged files with different bytes. -/
def c6Fs : FS := [("uploads/s/idA.jpg", .bytes "AAA"), ("uploads/s/idB.jpg", .bytes "BBB")]

/-- C6 concrete run: both selections choose the same new base name `x`. -/
def c6Run : Except HTTPErr (FS × Sessions × RenameResponse) :=
  rename_images c6Fs c6Sessions "s" ⟨[⟨"idA", "x"⟩, ⟨"idB", "x"⟩]⟩

/-- C6 witness session: one staged image. -/
def c6wSd : SessionData :=
  ⟨[("idA", mkStagedInfo "idA" "cat.jpg" "uploads/s/idA.jpg")], "analyzed", none⟩

/-- C6 witness filesystem: the staged bytes. -/
def c6wFs : FS := [("uploads/s/idA.jpg", FileContent.bytes "AAA")]

/-- C6 witness request: one selection with base name `pretty`. -/
def c6wReq : RenameRequest := ⟨[⟨"idA", "pretty"⟩]⟩

/-- The processed selection of the C6 witness request. -/
def c6wPr : Selection × ImageInfo :=
  (⟨"idA", "pretty"⟩, mkStagedInfo "idA" "cat.jpg" "uploads/s/idA.jpg")

/-- C5 witness session: two images. -/
def c5wSd : SessionData :=
  ⟨[("i1", mkStagedInfo "i1" "a.jpg" "uploads/s/i1.jpg"),
    ("i2", mkStagedInfo "i2" "b.jpg" "uploads/s/i2.jpg")], "uploaded", none⟩

/-- C5 witness oracle with image `i2` raising an exception. -/
def c5wEnv1 (i : String) : Nat × Except String String :=
  if i = "i2" then (5, Except.error "boom") else (5, Except.ok "fine")

/-- C5 witness oracle identical except image `i2` succeeds. -/
def c5wEnv2 (i : String) : Nat × Except String String :=
  if i = "i2" then (5, Except.ok "okay") else (5, Except.ok "fine")

/-- C7/C10 concrete inputs: three declared images and a text file. -/
def c7Imgs : List UploadFileIn :=
  [⟨"a.jpg", some "image/jpeg", "AA"⟩, ⟨"b.png", some "image/png", "BB"⟩,
   ⟨"c.gif", some "image/gif", "CC"⟩]

/-- A file whose declared content type is not an image type. -/
def c7Bad : UploadFileIn := ⟨"notes.txt", some "text/plain", "TT"⟩

/-- C10 concrete input: a batch in which no file passes the image filter. -/
def c10Files : List UploadFileIn := [⟨"readme.txt", some "text/plain", "hello"⟩]

instance {ε α : Type} [DecidableEq ε] [DecidableEq α] : DecidableEq (Except ε α) := fun x y =>
  match x, y with
  | .ok a, .ok b =>
    if h : a = b then .isTrue (by rw [h]) else .isFalse (fun hh => h (by cases hh; rfl))
  | .ok _, .error _ => .isFalse (fun hh => by cases hh)
  | .error _, .ok _ => .isFalse (fun hh => by cases hh)
  | .error a, .error b =>
    if h : a = b then .isTrue (by rw [h]) else .isFalse (fun hh => h (by cases hh; rfl))

/-- C1: every session-scoped endpoint called with an unknown session id fails,
but with HTTP 500, not 404: the handler's own `HTTPException(404)` is caught by
its blanket `except Exception` and re-raised as
`HTTPException(500, "... failed: 404: Session not found")`. -/
theorem C1_code_behavior :
  statusCodeOf (analyze_images (fun _ => (0, Except.ok "")) true [] "s") = some 500 ∧
  statusCodeOf (rename_images [] [] "s" ⟨[]⟩) = some 500 ∧
  statusCodeOf (download_renamed_images [] [] "s") = some 500 ∧
  statusCodeOf (get_session_status [] "s") = some 500 ∧
  statusCodeOf (cleanup_session [] [] "s") = some 500 := by decide

/-- C2 (counterexample): upload a session, rename it (status `completed`), then
invoke analyze on it: the status regresses to `analyzed`, an earlier phase. -/
theorem C2_counterexample :
  c2StatusAfterRename = some "completed" ∧
  c2StatusAfterAnalyze = some "analyzed" ∧
  phaseRank "analyzed" < phaseRank "completed" := by decide

/-- C3 (counterexample): session with images of work durations 100 s and 70 s.
The first times out and gets `status = "error"`, but (a) the second's work also
exceeds 60 s yet ends `"analyzed"` (its `result()` wait starts late), and (b)
the handler returns only at t = 100, waiting out the still-running worker
rather than returning within the 60 s timeout. -/
theorem C3_counterexample :
  respStatusOf c3Run "i1" = some "error" ∧
  respStatusOf c3Run "i2" = some "analyzed" ∧
  elapsedOf c3Run = some 100 ∧ ¬ (100 ≤ 60) := by decide

/-- C5 (counterexample): four images on the 3-worker pool.  When image `i1`'s
work hangs past the timeout (a timeout failure), queued sibling `i4` starts
late and also times out (`status = "error"`); with `i1` quick and everything
else identical, `i4` ends `"analyzed"`.  One image's failure thus does affect a
sibling's status. -/
theorem C5_counterexample :
  respStatusOf c5RunSlow "i1" = some "error" ∧
  respStatusOf c5RunSlow "i4" = some "error" ∧
  respStatusOf c5RunFast "i4" = some "analyzed" ∧
  (some "error" : Option String) ≠ some "analyzed" := by decide

/-- C6 (counterexample): two selections map distinct images (bytes `AAA` and
`BBB`) to the same base name `x`.  The second on-disk copy overwrites the
first before the archive is written, so extracting `x.jpg` yields `BBB`, not
the staged bytes `AAA` of the first selection. -/
theorem C6_counterexample :
  renamedNamesOf c6Run = some ["x.jpg", "x.jpg"] ∧
  (zipEntriesOf c6Run (zipPathOf "s")).map (zipExtract "x.jpg") = some (some "BBB") ∧
  bytesAt c6Fs "uploads/s/idA.jpg" = some "AAA" ∧
  ("BBB" : String) ≠ "AAA" := by decide

/-- Skipping a non-image file leaves the upload loop's result unchanged. -/
theorem uploadLoop_skip (gen : Nat → String) (sdir : String) (bad : UploadFileIn)
    (post : List UploadFileIn) (hbad : isImageFile bad = false) :
    ∀ (pre : List UploadFileIn) (n : Nat) (fs : FS),
    uploadLoop gen sdir n fs (pre ++ bad :: post) = uploadLoop gen sdir n fs (pre ++ post) := by
  intro pre
  induction pre with
  | nil => intro n fs; simp [uploadLoop, hbad]
  | cons f pre ih =>
    intro n fs
    by_cases hf : isImageFile f
    · simp [uploadLoop, hf, ih]
    · simp [uploadLoop, hf, ih]

/-- The upload loop accepts exactly the files passing the image filter. -/
theorem uploadLoop_count (gen : Nat → String) (sdir : String) :
    ∀ (files : List UploadFileIn) (n : Nat) (fs : FS),
    (uploadLoop gen sdir n fs files).2.1.length =
      (files.filter (fun f => isImageFile f)).length := by
  intro files
  induction files with
  | nil => intro n fs; simp [uploadLoop]
  | cons f rest ih => intro n fs; by_cases hf : isImageFile f <;> simp [uploadLoop, hf, ih]

/-- When no file passes the filter the upload loop is a no-op. -/
theorem uploadLoop_skipAll (gen : Nat → String) (sdir : String) :
    ∀ (files : List UploadFileIn) (n : Nat) (fs : FS),
    (∀ f ∈ files, isImageFile f = false) → uploadLoop gen sdir n fs files = (fs, [], n) := by
  intro files
  induction files with
  | nil => intro n fs _; rfl
  | cons f rest ih =>
    intro n fs h
    have hf : isImageFile f = false := h f (by simp)
    simp [uploadLoop, hf]
    exact ih n fs (fun g hg => h g (by simp [hg]))

/-- C7: a file whose declared content type is not an image type is silently
excluded: the whole upload result (response, session mapping, staged files) is
as if the file had not been sent, and `total_count` counts exactly the files
passing the image filter. -/
theorem C7_theorem (gen : Nat → String) (sid : String) (fs : FS) (sessions : Sessions)
    (pre post : List UploadFileIn) (bad : UploadFileIn) (hbad : isImageFile bad = false) :
    upload_images gen sid fs sessions (pre ++ bad :: post) =
      upload_images gen sid fs sessions (pre ++ post) ∧
    (upload_images gen sid fs sessions (pre ++ bad :: post)).2.2.total_count =
      ((pre ++ bad :: post).filter (fun f => isImageFile f)).length := by
  constructor
  · unfold upload_images
    rw [uploadLoop_skip gen (joinPath "uploads" sid) bad post hbad pre 0 fs]
  · simp only [upload_images]
    exact uploadLoop_count gen (joinPath "uploads" sid) (pre ++ bad :: post) 0 fs

/-- C7 witness: 3 images plus 1 text file behave like the 3 images alone. -/
theorem C7_witness :
    isImageFile c7Bad = false ∧
    (upload_images genId "s" [] [] (c7Imgs ++ c7Bad :: []) =
        upload_images genId "s" [] [] (c7Imgs ++ []) ∧
      (upload_images genId "s" [] [] (c7Imgs ++ c7Bad :: [])).2.2.total_count =
        ((c7Imgs ++ c7Bad :: []).filter (fun f => isImageFile f)).length) :=
  ⟨by decide, C7_theorem genId "s" [] [] c7Imgs [] c7Bad (by decide)⟩

/-- Projecting the record back out of the id-keyed image mapping is the identity. -/
theorem map_pair_snd (l : List ImageInfo) : l.map (Prod.snd ∘ fun i => (i.id, i)) = l := by
  have h : (Prod.snd ∘ fun i : ImageInfo => (i.id, i)) = id := rfl
  rw [h, List.map_id]

/-- C10: for every upload batch, a new session is registered under the returned
session id with status `uploaded`, and its image mapping holds exactly the
accepted records of the response (`total_count` of them, the number of files
passing the image filter); subsequent session-status, analyze and delete calls
on that id succeed rather than failing with NotFound.  In the zero-accepted
case the mapping is empty and `total_count = 0`. -/
theorem C10_theorem (gen : Nat → String) (sid : String) (fs : FS) (sessions : Sessions)
    (files : List UploadFileIn) (env : String → Nat × Except String String) :
    ∃ fs2 ss resp, upload_images gen sid fs sessions files = (fs2, ss, resp) ∧
      resp.session_id = sid ∧
      resp.total_count = resp.images.length ∧
      resp.total_count = (files.filter (fun f => isImageFile f)).length ∧
      lookupA ss sid = some ⟨resp.images.map (fun i => (i.id, i)), "uploaded", none⟩ ∧
      get_session_status ss sid = .ok ⟨sid, "uploaded", resp.images, resp.total_count⟩ ∧
      (∃ out, analyze_images env true ss sid = .ok out) ∧
      (∃ out, cleanup_session fs2 ss sid = .ok out) ∧
      ((∀ f ∈ files, isImageFile f = false) →
        resp.images = [] ∧ resp.total_count = 0 ∧
        lookupA ss sid = some ⟨[], "uploaded", none⟩) := by
  refine ⟨(uploadLoop gen (joinPath "uploads" sid) 0 fs files).1,
    (sid, ⟨(uploadLoop gen (joinPath "uploads" sid) 0 fs files).2.1.map
        (fun i : ImageInfo => (i.id, i)),
      "uploaded", none⟩) :: sessions,
    ⟨sid, (uploadLoop gen (joinPath "uploads" sid) 0 fs files).2.1,
      (uploadLoop gen (joinPath "uploads" sid) 0 fs files).2.1.length⟩,
    rfl, rfl, rfl, ?_, ?_, ?_, ?_, ?_, ?_⟩
  · exact uploadLoop_count gen (joinPath "uploads" sid) files 0 fs
  · simp [lookupA]
  · simp [get_session_status, sessionStatusBody, lookupA, wrapEndpoint, map_pair_snd]
  · exact ⟨_, by simp [analyze_images, analyzeBody, lookupA, wrapEndpoint]; rfl⟩
  · exact ⟨_, by simp [cleanup_session, cleanupBody, lookupA, wrapEndpoint]; rfl⟩
  · intro hall
    have hloop := uploadLoop_skipAll gen (joinPath "uploads" sid) files 0 fs hall
    refine ⟨?_, ?_, ?_⟩ <;> simp [hloop, lookupA]

/-- C10 witness: a mixed batch (three images and a text file) and a batch in
which zero files pass the filter. -/
theorem C10_witness :
    (∃ fs2 ss resp, upload_images genId "s" [] [] (c7Imgs ++ c7Bad :: []) = (fs2, ss, resp) ∧
      resp.session_id = "s" ∧
      resp.total_count = resp.images.length ∧
      resp.total_count = ((c7Imgs ++ c7Bad :: []).filter (fun f => isImageFile f)).length ∧
      lookupA ss "s" = some ⟨resp.images.map (fun i => (i.id, i)), "uploaded", none⟩ ∧
      get_session_status ss "s" = .ok ⟨"s", "uploaded", resp.images, resp.total_count⟩ ∧
      (∃ out, analyze_images (fun _ => (0, Except.ok "x")) true ss "s" = .ok out) ∧
      (∃ out, cleanup_session fs2 ss "s" = .ok out) ∧
      ((∀ f ∈ c7Imgs ++ c7Bad :: [], isImageFile f = false) →
        resp.images = [] ∧ resp.total_count = 0 ∧
        lookupA ss "s" = some ⟨[], "uploaded", none⟩)) ∧
    (∃ fs2 ss resp, upload_images genId "s" [] [] c10Files = (fs2, ss, resp) ∧
      resp.session_id = "s" ∧
      resp.total_count = resp.images.length ∧
      resp.total_count = (c10Files.filter (fun f => isImageFile f)).length ∧
      lookupA ss "s" = some ⟨resp.images.map (fun i => (i.id, i)), "uploaded", none⟩ ∧
      get_session_status ss "s" = .ok ⟨"s", "uploaded", resp.images, resp.total_count⟩ ∧
      (∃ out, analyze_images (fun _ => (0, Except.ok "x")) true ss "s" = .ok out) ∧
      (∃ out, cleanup_session fs2 ss "s" = .ok out) ∧
      ((∀ f ∈ c10Files, isImageFile f = false) →
        resp.images = [] ∧ resp.total_count = 0 ∧
        lookupA ss "s" = some ⟨[], "uploaded", none⟩)) :=
  ⟨C10_theorem genId "s" [] [] (c7Imgs ++ c7Bad :: []) (fun _ => (0, Except.ok "x")),
    C10_theorem genId "s" [] [] c10Files (fun _ => (0, Except.ok "x"))⟩

/-- FIFO scheduling preserves the number of tasks. -/
theorem schedule_length : ∀ (ds avail : List Nat), (schedule avail ds).length = ds.length := by
  intro ds
  induction ds with
  | nil => intro avail; rfl
  | cons d ds ih => intro avail; simp [schedule, ih]

/-- The collection loop produces one timeout flag per task. -/
theorem collectFlags_length : ∀ (fs : List Nat) (t : Nat),
    ((collectFlags t fs).1).length = fs.length := by
  intro fs
  induction fs with
  | nil => intro t; rfl
  | cons f fs ih => intro t; by_cases h : f ≤ t + 60 <;> simp [collectFlags, h, ih]

/-- The collection loop updates exactly the session records (same count). -/
theorem applyResults_length (env : String → Nat × Except String String) :
    ∀ (imgs : List (String × ImageInfo)) (bs : List Bool), bs.length = imgs.length →
    (applyResults env imgs bs).length = imgs.length := by
  intro imgs
  induction imgs with
  | nil => intro bs _; rfl
  | cons q rest ih =>
    intro bs hb
    cases bs with
    | nil => simp at hb
    | cons b bs =>
      obtain ⟨iid, info⟩ := q
      simp only [applyResults, List.length_cons]
      rw [ih bs (by simpa using hb)]

/-- The collection loop keeps every record under its own image id. -/
theorem applyResults_fst (env : String → Nat × Except String String) :
    ∀ (imgs : List (String × ImageInfo)) (bs : List Bool), bs.length = imgs.length →
    (applyResults env imgs bs).map Prod.fst = imgs.map Prod.fst := by
  intro imgs
  induction imgs with
  | nil => intro bs _; rfl
  | cons q rest ih =>
    intro bs hb
    cases bs with
    | nil => simp at hb
    | cons b bs =>
      obtain ⟨iid, info⟩ := q
      simp only [applyResults, List.map_cons]
      rw [ih bs (by simpa using hb)]

/-- Every updated record ends `analyzed` or `error`, never `pending`. -/
theorem applyResults_status (env : String → Nat × Except String String) :
    ∀ (imgs : List (String × ImageInfo)) (bs : List Bool),
    ∀ p ∈ applyResults env imgs bs, p.2.status = "analyzed" ∨ p.2.status = "error" := by
  intro imgs
  induction imgs with
  | nil => intro bs p hp; simp [applyResults] at hp
  | cons q rest ih =>
    intro bs p hp
    cases bs with
    | nil => obtain ⟨iid, info⟩ := q; simp [applyResults] at hp
    | cons b bs =>
      obtain ⟨iid, info⟩ := q
      simp only [applyResults, List.mem_cons] at hp
      rcases hp with h | h
      · subst h
        cases b
        · cases ho : (env iid).2 <;> simp [ho]
        · simp
      · exact ih bs p h

/-- One timeout flag per image of the session. -/
theorem analysisFlags_length (env : String → Nat × Except String String) (sd : SessionData) :
    (analysisFlags env sd).length = sd.images.length := by
  simp [analysisFlags, analysisFinishes, analysisDurations, collectFlags_length, schedule_length]

/-- C4: a successful analyze call on a known session with `k` images updates
exactly those `k` records (same ids, in order), returns all of them, leaves
every record with status `analyzed` or `error` (never `pending`), and touches
no other session. -/
theorem C4_theorem (env : String → Nat × Except String String) (sessions : Sessions)
    (sid : String) (sd : SessionData) (hs : lookupA sessions sid = some sd) :
    ∃ newImgs elapsed,
      analyze_images env true sessions sid =
        .ok ((sid, { sd with images := newImgs, status := "analyzed" }) :: sessions,
          ⟨sid, newImgs.map Prod.snd, "completed"⟩, elapsed) ∧
      newImgs.length = sd.images.length ∧
      newImgs.map Prod.fst = sd.images.map Prod.fst ∧
      (∀ p ∈ newImgs, p.2.status = "analyzed" ∨ p.2.status = "error") ∧
      (∀ sid2, sid2 ≠ sid →
        lookupA ((sid, { sd with images := newImgs, status := "analyzed" }) :: sessions) sid2 =
          lookupA sessions sid2) := by
  refine ⟨analysisImages env sd, analysisElapsed env sd, ?_, ?_, ?_, ?_, ?_⟩
  · simp [analyze_images, analyzeBody, hs, wrapEndpoint]
  · exact applyResults_length env sd.images _ (analysisFlags_length env sd)
  · exact applyResults_fst env sd.images _ (analysisFlags_length env sd)
  · exact applyResults_status env sd.images _
  · intro sid2 h2
    simp [lookupA, Ne.symm h2]

/-- C4 witness: a one-image session with a quick successful captioning. -/
theorem C4_witness :
    lookupA [("s", (⟨[("i1", ⟨"i1", "a.jpg", "", "uploads/s/i1.jpg", 2, "pending", none⟩)],
        "uploaded", none⟩ : SessionData))] "s" =
      some ⟨[("i1", ⟨"i1", "a.jpg", "", "uploads/s/i1.jpg", 2, "pending", none⟩)], "uploaded", none⟩ ∧
    (∃ newImgs elapsed,
      analyze_images (fun _ => (1, Except.ok "cat")) true
          [("s", ⟨[("i1", ⟨"i1", "a.jpg", "", "uploads/s/i1.jpg", 2, "pending", none⟩)],
            "uploaded", none⟩)] "s" =
        .ok (("s", { (⟨[("i1", ⟨"i1", "a.jpg", "", "uploads/s/i1.jpg", 2, "pending", none⟩)],
              "uploaded", none⟩ : SessionData) with images := newImgs, status := "analyzed" }) ::
            [("s", ⟨[("i1", ⟨"i1", "a.jpg", "", "uploads/s/i1.jpg", 2, "pending", none⟩)],
              "uploaded", none⟩)],
          ⟨"s", newImgs.map Prod.snd, "completed"⟩, elapsed) ∧
      newImgs.length =
        (⟨[("i1", ⟨"i1", "a.jpg", "", "uploads/s/i1.jpg", 2, "pending", none⟩)],
          "uploaded", none⟩ : SessionData).images.length ∧
      newImgs.map Prod.fst =
        (⟨[("i1", ⟨"i1", "a.jpg", "", "uploads/s/i1.jpg", 2, "pending", none⟩)],
          "uploaded", none⟩ : SessionData).images.map Prod.fst ∧
      (∀ p ∈ newImgs, p.2.status = "analyzed" ∨ p.2.status = "error") ∧
      (∀ sid2, sid2 ≠ "s" →
        lookupA (("s", { (⟨[("i1", ⟨"i1", "a.jpg", "", "uploads/s/i1.jpg", 2, "pending", none⟩)],
              "uploaded", none⟩ : SessionData) with images := newImgs, status := "analyzed" }) ::
            [("s", ⟨[("i1", ⟨"i1", "a.jpg", "", "uploads/s/i1.jpg", 2, "pending", none⟩)],
              "uploaded", none⟩)]) sid2 =
          lookupA [("s", ⟨[("i1", ⟨"i1", "a.jpg", "", "uploads/s/i1.jpg", 2, "pending", none⟩)],
            "uploaded", none⟩)] sid2)) :=
  ⟨by decide,
    C4_theorem (fun _ => (1, Except.ok "cat"))
      [("s", ⟨[("i1", ⟨"i1", "a.jpg", "", "uploads/s/i1.jpg", 2, "pending", none⟩)],
        "uploaded", none⟩)] "s"
      ⟨[("i1", ⟨"i1", "a.jpg", "", "uploads/s/i1.jpg", 2, "pending", none⟩)], "uploaded", none⟩
      (by decide)⟩

/-- C2 (amended): a successful analyze always sets the session status to
`"analyzed"` and a successful rename always sets it to `"completed"`,
regardless of the prior status — so analyze after rename regresses a
`completed` session to `analyzed`, and the forward-only invariant holds only
for the upload → analyze → rename order. -/
theorem C2_amended (env : String → Nat × Except String String) (fs : FS) (sessions : Sessions)
    (sid : String) (req : RenameRequest) :
    (∀ ss resp el, analyze_images env true sessions sid = .ok (ss, resp, el) →
      sessionStatusIn ss sid = some "analyzed") ∧
    (∀ fs2 ss resp, rename_images fs sessions sid req = .ok (fs2, ss, resp) →
      sessionStatusIn ss sid = some "completed") := by
  constructor
  · intro ss resp el h
    simp only [analyze_images, analyzeBody] at h
    cases hl : lookupA sessions sid with
    | none => rw [hl] at h; simp [wrapEndpoint] at h
    | some sd =>
      rw [hl] at h
      simp only [if_true, wrapEndpoint, Except.ok.injEq, Prod.mk.injEq] at h
      obtain ⟨h1, -, -⟩ := h
      rw [← h1]
      simp [sessionStatusIn, lookupA]
  · intro fs2 ss resp h
    simp only [rename_images, renameBody] at h
    cases hl : lookupA sessions sid with
    | none => simp only [hl, wrapEndpoint] at h; exact Except.noConfusion h
    | some sd =>
      simp only [hl] at h
      cases hloop : renameLoop sd.images (processedDirOf sid) fs req.images with
      | error m => simp only [hloop, wrapEndpoint] at h; exact Except.noConfusion h
      | ok pr =>
        obtain ⟨fs3, renamed⟩ := pr
        simp only [hloop] at h
        cases hz : buildZipEntries fs3 (renamed.map (fun r => (r.file_path, r.new_name))) with
        | error m => simp only [hz, wrapEndpoint] at h; exact Except.noConfusion h
        | ok entries =>
          simp only [hz, wrapEndpoint, Except.ok.injEq, Prod.mk.injEq] at h
          obtain ⟨-, h2, -⟩ := h
          rw [← h2]
          simp [sessionStatusIn, lookupA]

/-- C2 witness: concrete successful analyze and rename runs. -/
theorem C2_witness :
    sessionStatusIn (("s", ⟨[], "analyzed", none⟩) :: [("s", ⟨[], "uploaded", none⟩)]) "s" =
      some "analyzed" ∧
    sessionStatusIn (("s", ⟨[], "completed", some (zipPathOf "s")⟩) ::
        [("s", ⟨[], "uploaded", none⟩)]) "s" = some "completed" :=
  ⟨(C2_amended (fun _ => (0, Except.ok "x")) [] [("s", ⟨[], "uploaded", none⟩)] "s" ⟨[]⟩).1
      (("s", ⟨[], "analyzed", none⟩) :: [("s", ⟨[], "uploaded", none⟩)])
      ⟨"s", [], "completed"⟩ 0 (by decide),
    (C2_amended (fun _ => (0, Except.ok "x")) [] [("s", ⟨[], "uploaded", none⟩)] "s" ⟨[]⟩).2
      [(zipPathOf "s", .zip [])]
      (("s", ⟨[], "completed", some (zipPathOf "s")⟩) :: [("s", ⟨[], "uploaded", none⟩)])
      ⟨"s", [], true⟩ (by decide)⟩

/-- C3 (amended): for a single-image session whose captioning work takes
`d > 60` seconds, analyze marks the image `error` (with the empty
`str(TimeoutError())` diagnostic), but the handler returns only at time `d`:
the executor shutdown waits for the still-running worker instead of returning
at the 60-second timeout. -/
theorem C3_amended (env : String → Nat × Except String String) (sessions : Sessions)
    (sid iid : String) (info : ImageInfo) (sd : SessionData) (d : Nat)
    (hs : lookupA sessions sid = some sd) (himg : sd.images = [(iid, info)])
    (hd : (env iid).1 = d) (h60 : 60 < d) :
    analyze_images env true sessions sid =
      .ok ((sid, { sd with
                   images := [(iid, ({ info with status := "error", error := some "" }))]
                   status := "analyzed" }) :: sessions,
        ⟨sid, [{ info with status := "error", error := some "" }], "completed"⟩, d) := by
  have hfin : analysisFinishes env sd = [d] := by
    simp [analysisFinishes, analysisDurations, himg, hd, schedule, minList, replaceFirst]
  have hnd : ¬ (d ≤ 0 + 60) := by omega
  have hflags : analysisFlags env sd = [true] := by
    simp [analysisFlags, hfin, collectFlags, hnd]
  have hend : analysisEnd env sd = 60 := by
    simp [analysisEnd, hfin, collectFlags, hnd]
  have himgs : analysisImages env sd =
      [(iid, { info with status := "error", error := some "" })] := by
    simp [analysisImages, hflags, himg, applyResults]
  have hel : analysisElapsed env sd = d := by
    rw [analysisElapsed, hend, hfin]
    simp [maxList]
    omega
  simp [analyze_images, analyzeBody, hs, wrapEndpoint, himgs, hel]

/-- C3 witness: a 100-second unit of work against the 60-second timeout. -/
theorem C3_witness :
    lookupA [("s", (⟨[("i1", ⟨"i1", "a.jpg", "", "uploads/s/i1.jpg", 3, "pending", none⟩)],
        "uploaded", none⟩ : SessionData))] "s" =
      some ⟨[("i1", ⟨"i1", "a.jpg", "", "uploads/s/i1.jpg", 3, "pending", none⟩)],
        "uploaded", none⟩ ∧
    (⟨[("i1", ⟨"i1", "a.jpg", "", "uploads/s/i1.jpg", 3, "pending", none⟩)],
        "uploaded", none⟩ : SessionData).images =
      [("i1", ⟨"i1", "a.jpg", "", "uploads/s/i1.jpg", 3, "pending", none⟩)] ∧
    ((fun _ => (100, Except.ok "late")) "i1" : Nat × Except String String).1 = 100 ∧
    60 < 100 ∧
    analyze_images (fun _ => (100, Except.ok "late")) true
        [("s", ⟨[("i1", ⟨"i1", "a.jpg", "", "uploads/s/i1.jpg", 3, "pending", none⟩)],
          "uploaded", none⟩)] "s" =
      .ok (("s", { (⟨[("i1", ⟨"i1", "a.jpg", "", "uploads/s/i1.jpg", 3, "pending", none⟩)],
            "uploaded", none⟩ : SessionData) with
          images := [("i1", ({ (⟨"i1", "a.jpg", "", "uploads/s/i1.jpg", 3, "pending", none⟩ :
                       ImageInfo) with status := "error", error := some "" }))]
          status := "analyzed" }) ::
          [("s", ⟨[("i1", ⟨"i1", "a.jpg", "", "uploads/s/i1.jpg", 3, "pending", none⟩)],
            "uploaded", none⟩)],
        ⟨"s", [{ (⟨"i1", "a.jpg", "", "uploads/s/i1.jpg", 3, "pending", none⟩ : ImageInfo) with
          status := "error", error := some "" }], "completed"⟩, 100) :=
  ⟨by decide, by decide, by decide, by decide,
    C3_amended (fun _ => (100, Except.ok "late"))
      [("s", ⟨[("i1", ⟨"i1", "a.jpg", "", "uploads/s/i1.jpg", 3, "pending", none⟩)],
        "uploaded", none⟩)] "s" "i1"
      ⟨"i1", "a.jpg", "", "uploads/s/i1.jpg", 3, "pending", none⟩
      ⟨[("i1", ⟨"i1", "a.jpg", "", "uploads/s/i1.jpg", 3, "pending", none⟩)], "uploaded", none⟩
      100 (by decide) (by decide) (by decide) (by decide)⟩

/-- With the timing (flags) fixed, changing only image `j`'s outcome leaves
every other record unchanged. -/
theorem applyResults_frame (env1 env2 : String → Nat × Except String String) (j : String)
    (hne : ∀ i, i ≠ j → env1 i = env2 i) :
    ∀ (imgs : List (String × ImageInfo)) (bs : List Bool),
    List.Forall₂ (fun p q => p.1 = q.1 ∧ (p.1 ≠ j → p = q))
      (applyResults env1 imgs bs) (applyResults env2 imgs bs) := by
  intro imgs
  induction imgs with
  | nil => intro bs; exact List.Forall₂.nil
  | cons q rest ih =>
    intro bs
    cases bs with
    | nil =>
      obtain ⟨iid, info⟩ := q
      exact List.Forall₂.nil
    | cons b bs =>
      obtain ⟨iid, info⟩ := q
      refine List.Forall₂.cons ⟨rfl, ?_⟩ (ih bs)
      intro hj
      rw [hne iid hj]

/-- A record whose own unit of work raised ends with status `error` and a
populated `error` field (also when it timed out instead). -/
theorem applyResults_err (env : String → Nat × Except String String) (j msg : String)
    (hj : (env j).2 = .error msg) :
    ∀ (imgs : List (String × ImageInfo)) (bs : List Bool),
    ∀ p ∈ applyResults env imgs bs, p.1 = j →
      p.2.status = "error" ∧ p.2.error.isSome := by
  intro imgs
  induction imgs with
  | nil => intro bs p hp _; simp [applyResults] at hp
  | cons q rest ih =>
    intro bs p hp hpj
    cases bs with
    | nil =>
      obtain ⟨iid, info⟩ := q
      simp [applyResults] at hp
    | cons b bs =>
      obtain ⟨iid, info⟩ := q
      simp only [applyResults, List.mem_cons] at hp
      rcases hp with h | h
      · subst h
        simp only at hpj
        subst hpj
        cases b
        · rw [hj]
          simp
        · simp
      · exact ih bs p h hpj

/-- C5 (amended): per-image failure containment under fixed work durations.
If image `j`'s unit of work raises (any reason), both calls still succeed,
`j`'s record gets status `error` with the `error` field populated, and every
sibling record is exactly what it would have been had `j` succeeded — provided
the work durations are unchanged.  (When the failure is a hang past the
timeout, the durations change and a queued sibling can itself time out:
see the counterexample.) -/
theorem C5_amended (env1 env2 : String → Nat × Except String String) (sessions : Sessions)
    (sid j : String) (sd : SessionData) (msg : String)
    (hs : lookupA sessions sid = some sd)
    (hdur : ∀ i, (env1 i).1 = (env2 i).1)
    (hne : ∀ i, i ≠ j → env1 i = env2 i)
    (hfail : (env1 j).2 = .error msg) :
    analyze_images env1 true sessions sid =
      .ok ((sid, { sd with images := analysisImages env1 sd, status := "analyzed" }) :: sessions,
        ⟨sid, (analysisImages env1 sd).map Prod.snd, "completed"⟩, analysisElapsed env1 sd) ∧
    analyze_images env2 true sessions sid =
      .ok ((sid, { sd with images := analysisImages env2 sd, status := "analyzed" }) :: sessions,
        ⟨sid, (analysisImages env2 sd).map Prod.snd, "completed"⟩, analysisElapsed env2 sd) ∧
    analysisElapsed env1 sd = analysisElapsed env2 sd ∧
    List.Forall₂ (fun p q => p.1 = q.1 ∧ (p.1 ≠ j → p = q))
      (analysisImages env1 sd) (analysisImages env2 sd) ∧
    (∀ p ∈ analysisImages env1 sd, p.1 = j → p.2.status = "error" ∧ p.2.error.isSome) := by
  have hfe : (fun p : String × ImageInfo => (env1 p.1).1) =
      (fun p : String × ImageInfo => (env2 p.1).1) := funext fun p => hdur p.1
  have hdur2 : analysisDurations env1 sd = analysisDurations env2 sd := by
    unfold analysisDurations
    rw [hfe]
  have hfin : analysisFinishes env1 sd = analysisFinishes env2 sd := by
    unfold analysisFinishes
    rw [hdur2]
  have hflags : analysisFlags env1 sd = analysisFlags env2 sd := by
    unfold analysisFlags
    rw [hfin]
  have hel : analysisElapsed env1 sd = analysisElapsed env2 sd := by
    unfold analysisElapsed analysisEnd maxList
    rw [hfin]
  refine ⟨?_, ?_, hel, ?_, ?_⟩
  · simp [analyze_images, analyzeBody, hs, wrapEndpoint]
  · simp [analyze_images, analyzeBody, hs, wrapEndpoint]
  · unfold analysisImages
    rw [hflags]
    exact applyResults_frame env1 env2 j hne sd.images _
  · exact applyResults_err env1 j msg hfail sd.images _

/-- C5 witness: two images with equal durations, the second raising in one run
and succeeding in the other. -/
theorem C5_witness :
    lookupA [("s", c5wSd)] "s" = some c5wSd ∧
    (∀ i, (c5wEnv1 i).1 = (c5wEnv2 i).1) ∧
    (∀ i, i ≠ "i2" → c5wEnv1 i = c5wEnv2 i) ∧
    (c5wEnv1 "i2").2 = .error "boom" ∧
    (analyze_images c5wEnv1 true [("s", c5wSd)] "s" =
        .ok (("s", { c5wSd with images := analysisImages c5wEnv1 c5wSd, status := "analyzed" }) ::
            [("s", c5wSd)],
          ⟨"s", (analysisImages c5wEnv1 c5wSd).map Prod.snd, "completed"⟩,
          analysisElapsed c5wEnv1 c5wSd) ∧
      analyze_images c5wEnv2 true [("s", c5wSd)] "s" =
        .ok (("s", { c5wSd with images := analysisImages c5wEnv2 c5wSd, status := "analyzed" }) ::
            [("s", c5wSd)],
          ⟨"s", (analysisImages c5wEnv2 c5wSd).map Prod.snd, "completed"⟩,
          analysisElapsed c5wEnv2 c5wSd) ∧
      analysisElapsed c5wEnv1 c5wSd = analysisElapsed c5wEnv2 c5wSd ∧
      List.Forall₂ (fun p q => p.1 = q.1 ∧ (p.1 ≠ "i2" → p = q))
        (analysisImages c5wEnv1 c5wSd) (analysisImages c5wEnv2 c5wSd) ∧
      (∀ p ∈ analysisImages c5wEnv1 c5wSd, p.1 = "i2" →
        p.2.status = "error" ∧ p.2.error.isSome)) :=
  ⟨by decide,
    by intro i; by_cases hi : i = "i2" <;> simp [c5wEnv1, c5wEnv2, hi],
    by intro i hi; simp [c5wEnv1, c5wEnv2, hi],
    by decide,
    C5_amended c5wEnv1 c5wEnv2 [("s", c5wSd)] "s" "i2" c5wSd "boom" (by decide)
      (by intro i; by_cases hi : i = "i2" <;> simp [c5wEnv1, c5wEnv2, hi])
      (by intro i hi; simp [c5wEnv1, c5wEnv2, hi]) (by decide)⟩

/-- A selection whose image id is unknown is skipped: the copy loop's result
is unchanged by its presence, wherever it sits in the request. -/
theorem renameLoop_skip (images : List (String × ImageInfo)) (pd : String) (sel : Selection)
    (post : List Selection) (hmiss : lookupA images sel.id = none) :
    ∀ (pre : List Selection) (fs : FS),
    renameLoop images pd fs (pre ++ sel :: post) = renameLoop images pd fs (pre ++ post) := by
  intro pre
  induction pre with
  | nil => intro fs; simp [renameLoop, hmiss]
  | cons p pre ih =>
    intro fs
    cases hl : lookupA images p.id with
    | none => simp [renameLoop, hl, ih]
    | some info =>
      cases hr : lookupA fs info.file_path with
      | none => simp [renameLoop, hl, hr]
      | some c => simp [renameLoop, hl, hr, ih]

/-- C8: a rename selection referencing a nonexistent image id is silently
skipped — the whole rename result (archive, registry, response) equals that of
the request without it, so it contributes no entry, no response element, and
never fails the call. -/
theorem C8_theorem (fs : FS) (sessions : Sessions) (sid : String) (sd : SessionData)
    (pre post : List Selection) (sel : Selection)
    (hs : lookupA sessions sid = some sd) (hmiss : lookupA sd.images sel.id = none) :
    rename_images fs sessions sid ⟨pre ++ sel :: post⟩ =
      rename_images fs sessions sid ⟨pre ++ post⟩ := by
  simp only [rename_images, renameBody, hs]
  rw [renameLoop_skip sd.images (processedDirOf sid) sel post hmiss pre fs]

/-- C8 witness: a ghost selection ahead of a valid one changes nothing. -/
theorem C8_witness :
    lookupA [("s", (⟨[("idA", mkStagedInfo "idA" "cat.jpg" "uploads/s/idA.jpg")],
        "analyzed", none⟩ : SessionData))] "s" =
      some ⟨[("idA", mkStagedInfo "idA" "cat.jpg" "uploads/s/idA.jpg")], "analyzed", none⟩ ∧
    lookupA (⟨[("idA", mkStagedInfo "idA" "cat.jpg" "uploads/s/idA.jpg")],
        "analyzed", none⟩ : SessionData).images "ghost" = none ∧
    rename_images [("uploads/s/idA.jpg", .bytes "AAA")]
        [("s", ⟨[("idA", mkStagedInfo "idA" "cat.jpg" "uploads/s/idA.jpg")], "analyzed", none⟩)]
        "s" ⟨[] ++ ⟨"ghost", "g"⟩ :: [⟨"idA", "nice"⟩]⟩ =
      rename_images [("uploads/s/idA.jpg", .bytes "AAA")]
        [("s", ⟨[("idA", mkStagedInfo "idA" "cat.jpg" "uploads/s/idA.jpg")], "analyzed", none⟩)]
        "s" ⟨[] ++ [⟨"idA", "nice"⟩]⟩ :=
  ⟨by decide, by decide,
    C8_theorem [("uploads/s/idA.jpg", .bytes "AAA")]
      [("s", ⟨[("idA", mkStagedInfo "idA" "cat.jpg" "uploads/s/idA.jpg")], "analyzed", none⟩)]
      "s" ⟨[("idA", mkStagedInfo "idA" "cat.jpg" "uploads/s/idA.jpg")], "analyzed", none⟩
      [] [⟨"idA", "nice"⟩] ⟨"ghost", "g"⟩ (by decide) (by decide)⟩

/-- When no selection matches, the copy loop is a no-op producing no records. -/
theorem renameLoop_noneAll (images : List (String × ImageInfo)) (pd : String) :
    ∀ (sels : List Selection) (fs : FS),
    (∀ sel ∈ sels, lookupA images sel.id = none) →
    renameLoop images pd fs sels = .ok (fs, []) := by
  intro sels
  induction sels with
  | nil => intro fs _; rfl
  | cons s rest ih =>
    intro fs h
    have hm := h s (by simp)
    simp [renameLoop, hm]
    exact ih fs (fun g hg => h g (by simp [hg]))

/-- C9: rename with an empty selection list (or none matching) still succeeds:
it writes an empty archive at the session's archive path, marks the session
`completed` with `zip_path` recorded, returns no renamed images with
`download_ready = true`, and a subsequent download serves that empty archive. -/
theorem C9_theorem (fs : FS) (sessions : Sessions) (sid : String) (sd : SessionData)
    (req : RenameRequest) (hs : lookupA sessions sid = some sd)
    (hnone : ∀ sel ∈ req.images, lookupA sd.images sel.id = none) :
    rename_images fs sessions sid req =
      .ok (fsWrite fs (zipPathOf sid) (.zip []),
        (sid, { sd with status := "completed", zip_path := some (zipPathOf sid) }) :: sessions,
        ⟨sid, [], true⟩) ∧
    lookupA (fsWrite fs (zipPathOf sid) (.zip [])) (zipPathOf sid) = some (.zip []) ∧
    download_renamed_images (fsWrite fs (zipPathOf sid) (.zip []))
        ((sid, { sd with status := "completed", zip_path := some (zipPathOf sid) }) :: sessions)
        sid =
      .ok ⟨zipPathOf sid, "application/zip", "renamed_images.zip"⟩ := by
  have hloop := renameLoop_noneAll sd.images (processedDirOf sid) req.images fs hnone
  refine ⟨?_, ?_, ?_⟩
  · simp [rename_images, renameBody, hs, hloop, buildZipEntries, wrapEndpoint]
  · simp [lookupA, fsWrite]
  · simp [download_renamed_images, downloadBody, lookupA, fsWrite, wrapEndpoint]

/-- C9 witness: a request whose only selection matches nothing. -/
theorem C9_witness :
    lookupA [("s", (⟨[("idA", mkStagedInfo "idA" "cat.jpg" "uploads/s/idA.jpg")],
        "analyzed", none⟩ : SessionData))] "s" =
      some ⟨[("idA", mkStagedInfo "idA" "cat.jpg" "uploads/s/idA.jpg")], "analyzed", none⟩ ∧
    (∀ sel ∈ ([⟨"ghost", "g"⟩] : List Selection),
      lookupA (⟨[("idA", mkStagedInfo "idA" "cat.jpg" "uploads/s/idA.jpg")],
        "analyzed", none⟩ : SessionData).images sel.id = none) ∧
    (rename_images [] [("s", ⟨[("idA", mkStagedInfo "idA" "cat.jpg" "uploads/s/idA.jpg")],
          "analyzed", none⟩)] "s" ⟨[⟨"ghost", "g"⟩]⟩ =
        .ok (fsWrite [] (zipPathOf "s") (.zip []),
          ("s", { (⟨[("idA", mkStagedInfo "idA" "cat.jpg" "uploads/s/idA.jpg")],
              "analyzed", none⟩ : SessionData) with
            status := "completed", zip_path := some (zipPathOf "s") }) ::
            [("s", ⟨[("idA", mkStagedInfo "idA" "cat.jpg" "uploads/s/idA.jpg")],
              "analyzed", none⟩)],
          ⟨"s", [], true⟩) ∧
      lookupA (fsWrite [] (zipPathOf "s") (.zip [])) (zipPathOf "s") = some (.zip []) ∧
      download_renamed_images (fsWrite [] (zipPathOf "s") (.zip []))
          (("s", { (⟨[("idA", mkStagedInfo "idA" "cat.jpg" "uploads/s/idA.jpg")],
              "analyzed", none⟩ : SessionData) with
            status := "completed", zip_path := some (zipPathOf "s") }) ::
            [("s", ⟨[("idA", mkStagedInfo "idA" "cat.jpg" "uploads/s/idA.jpg")],
              "analyzed", none⟩)]) "s" =
        .ok ⟨zipPathOf "s", "application/zip", "renamed_images.zip"⟩) :=
  ⟨by decide, by decide,
    C9_theorem [] [("s", ⟨[("idA", mkStagedInfo "idA" "cat.jpg" "uploads/s/idA.jpg")],
        "analyzed", none⟩)] "s"
      ⟨[("idA", mkStagedInfo "idA" "cat.jpg" "uploads/s/idA.jpg")], "analyzed", none⟩
      ⟨[⟨"ghost", "g"⟩]⟩ (by decide) (by decide)⟩

/-- `++` on strings cancels on the left. -/
theorem str_append_left_cancel {s a b : String} (h : s ++ a = s ++ b) : a = b := by
  have h2 : (s ++ a).data = (s ++ b).data := congrArg String.data h
  rw [String.data_append, String.data_append] at h2
  exact String.ext (List.append_cancel_left h2)

/-- Distinct names under the same directory give distinct paths. -/
theorem joinPath_inj {d a b : String} (h : joinPath d a = joinPath d b) : a = b := by
  unfold joinPath at h
  exact str_append_left_cancel h

/-- Reading after a write: the written path wins, others are unchanged. -/
theorem lookupA_fsWrite (fs : FS) (p q : String) (c : FileContent) :
    lookupA (fsWrite fs p c) q = if p = q then some c else lookupA fs q := rfl

/-- If no processed selection carries name `n`, `lastWithName` is `none`. -/
theorem lastWithName_none {n : String} :
    ∀ {l : List (Selection × ImageInfo)}, lastWithName n l = none →
    ∀ pr ∈ l, entryName pr ≠ n := by
  intro l
  induction l with
  | nil => intro _ pr hpr; simp at hpr
  | cons q rest ih =>
    intro h pr hpr
    simp only [lastWithName] at h
    cases hr : lastWithName n rest with
    | some x => rw [hr] at h; exact absurd h (by simp)
    | none =>
      rw [hr] at h
      rcases List.mem_cons.mp hpr with he | he
      · subst he
        intro hq
        rw [if_pos hq] at h
        exact absurd h (by simp)
      · exact ih hr pr he

/-- `lastWithName` returns an element of the list carrying the name. -/
theorem lastWithName_mem {n : String} :
    ∀ {l : List (Selection × ImageInfo)} {q : Selection × ImageInfo},
    lastWithName n l = some q → q ∈ l ∧ entryName q = n := by
  intro l
  induction l with
  | nil => intro q h; simp [lastWithName] at h
  | cons p rest ih =>
    intro q h
    simp only [lastWithName] at h
    cases hr : lastWithName n rest with
    | some x =>
      rw [hr] at h
      obtain rfl : x = q := by simpa using h
      obtain ⟨h1, h2⟩ := ih hr
      exact ⟨List.mem_cons_of_mem _ h1, h2⟩
    | none =>
      rw [hr] at h
      by_cases hq : entryName p = n
      · rw [if_pos hq] at h
        obtain rfl : p = q := by simpa using h
        exact ⟨List.mem_cons_self _ _, hq⟩
      · rw [if_neg hq] at h
        exact absurd h (by simp)

/-- Every processed selection has a last selection with its name. -/
theorem lastWithName_isSome_of_mem :
    ∀ {l : List (Selection × ImageInfo)} {pr : Selection × ImageInfo}, pr ∈ l →
    ∃ q, lastWithName (entryName pr) l = some q := by
  intro l
  induction l with
  | nil => intro pr hpr; simp at hpr
  | cons p rest ih =>
    intro pr hpr
    simp only [lastWithName]
    cases hr : lastWithName (entryName pr) rest with
    | some x => exact ⟨x, rfl⟩
    | none =>
      rcases List.mem_cons.mp hpr with he | he
      · subst he
        rw [if_pos rfl]
        exact ⟨pr, rfl⟩
      · obtain ⟨q, hq⟩ := ih he
        rw [hq] at hr
        exact absurd hr (by simp)

/-- `lastArc` returns the source path of an input carrying the arcname. -/
theorem lastArc_mem {n : String} :
    ∀ {l : List (String × String)} {p : String}, lastArc n l = some p →
    ∃ e ∈ l, e.1 = p ∧ e.2 = n := by
  intro l
  induction l with
  | nil => intro p h; simp [lastArc] at h
  | cons i rest ih =>
    intro p h
    simp only [lastArc] at h
    cases hr : lastArc n rest with
    | some x =>
      rw [hr] at h
      obtain rfl : x = p := by simpa using h
      obtain ⟨e, he, h1, h2⟩ := ih hr
      exact ⟨e, List.mem_cons_of_mem _ he, h1, h2⟩
    | none =>
      rw [hr] at h
      by_cases hq : i.2 = n
      · rw [if_pos hq] at h
        obtain rfl : i.1 = p := by simpa using h
        exact ⟨i, List.mem_cons_self _ _, rfl, hq⟩
      · rw [if_neg hq] at h
        exact absurd h (by simp)

/-- `lastArc` over the export inputs mirrors `lastWithName`. -/
theorem lastArc_map (pd n : String) :
    ∀ l : List (Selection × ImageInfo),
    lastArc n (l.map (fun pr => (entryPathOf pd pr, entryName pr))) =
      (lastWithName n l).map (fun pr => entryPathOf pd pr) := by
  intro l
  induction l with
  | nil => rfl
  | cons p rest ih =>
    simp only [List.map_cons, lastArc, lastWithName, ih]
    cases lastWithName n rest with
    | some x => rfl
    | none =>
      by_cases hq : entryName p = n
      · rw [if_pos hq, if_pos hq]
        rfl
      · rw [if_neg hq, if_neg hq]
        rfl

/-- An unmatched selection contributes no processed selection. -/
theorem procSels_cons_none {images : List (String × ImageInfo)} {s : Selection}
    {sels : List Selection} (h : lookupA images s.id = none) :
    procSels images (s :: sels) = procSels images sels := by
  simp [procSels, h]

/-- A matched selection contributes itself with its record. -/
theorem procSels_cons_some {images : List (String × ImageInfo)} {s : Selection}
    {info : ImageInfo} {sels : List Selection} (h : lookupA images s.id = some info) :
    procSels images (s :: sels) = (s, info) :: procSels images sels := by
  simp [procSels, h]

/-- A readable-bytes path stores a bytes file. -/
theorem bytesAt_isSome {fs : FS} {p : String} (h : (bytesAt fs p).isSome) :
    ∃ d, lookupA fs p = some (.bytes d) := by
  unfold bytesAt at h
  cases hl : lookupA fs p with
  | none => rw [hl] at h; simp at h
  | some c =>
    cases c with
    | bytes d => exact ⟨d, rfl⟩
    | zip es => rw [hl] at h; simp at h

/-- `bytesAt` only depends on the lookup result. -/
theorem bytesAt_congr {fs1 fs2 : FS} {p q : String}
    (h : lookupA fs1 p = lookupA fs2 q) : bytesAt fs1 p = bytesAt fs2 q := by
  unfold bytesAt
  rw [h]

/-- Specification of the copy loop.  When every matched selection's staged file
is readable and no staged file sits at an export path, the loop succeeds,
produces exactly the export records of the processed selections in order,
writes only at export paths, and leaves at `processedDir / n` the staged bytes
of the **last** processed selection whose display name is `n` (earlier
same-named copies are overwritten). -/
theorem renameLoop_spec (images : List (String × ImageInfo)) (pd : String) :
    ∀ (sels : List Selection) (fs : FS),
    (∀ pr ∈ procSels images sels, ∃ d, lookupA fs pr.2.file_path = some (.bytes d)) →
    (∀ pr ∈ procSels images sels, ∀ pr2 ∈ procSels images sels,
      pr.2.file_path ≠ entryPathOf pd pr2) →
    ∃ fs2,
      renameLoop images pd fs sels = .ok (fs2, (procSels images sels).map (mkRenamed pd)) ∧
      (∀ p : String, (∀ pr ∈ procSels images sels, p ≠ entryPathOf pd pr) →
        lookupA fs2 p = lookupA fs p) ∧
      (∀ n pr0, lastWithName n (procSels images sels) = some pr0 →
        lookupA fs2 (joinPath pd n) = lookupA fs pr0.2.file_path) := by
  intro sels
  induction sels with
  | nil =>
    intro fs _ _
    refine ⟨fs, rfl, fun p _ => rfl, ?_⟩
    intro n pr0 h
    simp [procSels, lastWithName] at h
  | cons s rest ih =>
    intro fs hb hdisj
    cases hl : lookupA images s.id with
    | none =>
      rw [procSels_cons_none hl] at hb hdisj ⊢
      obtain ⟨fs2, h1, h2, h3⟩ := ih fs hb hdisj
      refine ⟨fs2, ?_, h2, h3⟩
      simpa [renameLoop, hl] using h1
    | some info =>
      rw [procSels_cons_some hl] at hb hdisj ⊢
      obtain ⟨d, hread⟩ := hb (s, info) (List.mem_cons_self _ _)
      have hb' : ∀ pr ∈ procSels images rest, ∃ d2,
          lookupA (fsWrite fs (entryPathOf pd (s, info)) (.bytes d)) pr.2.file_path =
            some (.bytes d2) := by
        intro pr hpr
        obtain ⟨d2, hd2⟩ := hb pr (List.mem_cons_of_mem _ hpr)
        refine ⟨d2, ?_⟩
        rw [lookupA_fsWrite, if_neg ?_]
        · exact hd2
        · intro he
          exact hdisj pr (List.mem_cons_of_mem _ hpr) (s, info) (List.mem_cons_self _ _) he.symm
      have hdisj' : ∀ pr ∈ procSels images rest, ∀ pr2 ∈ procSels images rest,
          pr.2.file_path ≠ entryPathOf pd pr2 := fun pr hpr pr2 hpr2 =>
        hdisj pr (List.mem_cons_of_mem _ hpr) pr2 (List.mem_cons_of_mem _ hpr2)
      obtain ⟨fs2, h1, h2, h3⟩ :=
        ih (fsWrite fs (entryPathOf pd (s, info)) (.bytes d)) hb' hdisj'
      refine ⟨fs2, ?_, ?_, ?_⟩
      · simp only [renameLoop, hl, hread]
        rw [show fsWrite fs (joinPath pd (s.new_name ++ pathSuffix info.file_path)) (.bytes d) =
          fsWrite fs (entryPathOf pd (s, info)) (.bytes d) from rfl]
        rw [h1]
        simp [mkRenamed, entryName, entryPathOf]
      · intro p hp
        have hstep := h2 p (fun pr hpr => hp pr (List.mem_cons_of_mem _ hpr))
        rw [hstep, lookupA_fsWrite, if_neg ?_]
        intro he
        exact hp (s, info) (List.mem_cons_self _ _) he.symm
      · intro n pr0 hn
        simp only [lastWithName] at hn
        cases hr : lastWithName n (procSels images rest) with
        | some q =>
          simp only [hr, Option.some.injEq] at hn
          subst hn
          have hq3 := h3 n q hr
          rw [hq3, lookupA_fsWrite, if_neg ?_]
          intro he
          exact hdisj q (List.mem_cons_of_mem _ (lastWithName_mem hr).1)
            (s, info) (List.mem_cons_self _ _) he.symm
        | none =>
          simp only [hr] at hn
          by_cases hq : entryName (s, info) = n
          · rw [if_pos hq] at hn
            simp only [Option.some.injEq] at hn
            subst hn
            have hnp : ∀ pr ∈ procSels images rest, joinPath pd n ≠ entryPathOf pd pr := by
              intro pr hpr he
              exact lastWithName_none hr pr hpr (joinPath_inj he.symm)
            have hstep := h2 (joinPath pd n) hnp
            rw [hstep, lookupA_fsWrite, if_pos ?_]
            · exact hread.symm
            · show entryPathOf pd (s, info) = joinPath pd n
              rw [← hq]
              rfl
          · rw [if_neg hq] at hn
            exact absurd hn (by simp)

/-- Specification of the zip loop: it reads each input path's current bytes,
and resolving a name in the written archive yields the bytes at the source
path of the last input carrying that name. -/
theorem buildZipEntries_spec (fs : FS) :
    ∀ inputs : List (String × String),
    (∀ i ∈ inputs, (bytesAt fs i.1).isSome) →
    ∃ es, buildZipEntries fs inputs = .ok es ∧
      ∀ n, zipExtract n es = (lastArc n inputs).bind (bytesAt fs) := by
  intro inputs
  induction inputs with
  | nil =>
    intro _
    exact ⟨[], rfl, fun n => rfl⟩
  | cons i rest ih =>
    intro h
    obtain ⟨p1, p2⟩ := i
    have hi := h (p1, p2) (List.mem_cons_self _ _)
    obtain ⟨d, hd⟩ := Option.isSome_iff_exists.mp hi
    obtain ⟨es, h1, h2⟩ := ih (fun j hj => h j (List.mem_cons_of_mem _ hj))
    refine ⟨(p2, d) :: es, ?_, ?_⟩
    · simp only [buildZipEntries, hd, h1]
    · intro n
      simp only [zipExtract, lastArc]
      rw [h2 n]
      cases hla : lastArc n rest with
      | some p =>
        obtain ⟨e, he, he1, he2⟩ := lastArc_mem hla
        have hps : (bytesAt fs p).isSome := by
          rw [← he1]
          exact h e (List.mem_cons_of_mem _ he)
        obtain ⟨dd, hdd⟩ := Option.isSome_iff_exists.mp hps
        simp [hdd]
      | none =>
        by_cases hq : p2 = n
        · simp [hq, hd]
        · simp [hq]

/-- C6 (amended): for every display name `n` produced by the rename request,
extracting `n` from the produced archive yields bytes identical to the staged
upload of the **last** processed selection producing `n`.  In particular, when
a selection's display name is not reused by any later selection, the archive
entry holds exactly its staged bytes; duplicate names silently overwrite
(see the counterexample).  Hypotheses: the session is known, every matched
staged file is readable, and staged files do not sit inside the session's
export directory. -/
theorem C6_amended (fs : FS) (sessions : Sessions) (sid n : String) (sd : SessionData)
    (req : RenameRequest) (pr0 : Selection × ImageInfo) (d0 : String)
    (hs : lookupA sessions sid = some sd)
    (hb : ∀ pr ∈ procSels sd.images req.images, (bytesAt fs pr.2.file_path).isSome)
    (hdisj : ∀ pr ∈ procSels sd.images req.images, ∀ pr2 ∈ procSels sd.images req.images,
      pr.2.file_path ≠ entryPathOf (processedDirOf sid) pr2)
    (hlast : lastWithName n (procSels sd.images req.images) = some pr0)
    (hc : bytesAt fs pr0.2.file_path = some d0) :
    ∃ fs2 entries,
      rename_images fs sessions sid req =
        .ok (fsWrite fs2 (zipPathOf sid) (.zip entries),
          (sid, { sd with status := "completed", zip_path := some (zipPathOf sid) }) :: sessions,
          ⟨sid, (procSels sd.images req.images).map (mkRenamed (processedDirOf sid)), true⟩) ∧
      lookupA (fsWrite fs2 (zipPathOf sid) (.zip entries)) (zipPathOf sid) =
        some (.zip entries) ∧
      zipExtract n entries = some d0 := by
  have hbE : ∀ pr ∈ procSels sd.images req.images, ∃ d,
      lookupA fs pr.2.file_path = some (.bytes d) := fun pr hpr => bytesAt_isSome (hb pr hpr)
  obtain ⟨fs2, hloop, hpres, hlastw⟩ :=
    renameLoop_spec sd.images (processedDirOf sid) req.images fs hbE hdisj
  have hinputs : ((procSels sd.images req.images).map (mkRenamed (processedDirOf sid))).map
      (fun r => (r.file_path, r.new_name)) =
      (procSels sd.images req.images).map
        (fun pr => (entryPathOf (processedDirOf sid) pr, entryName pr)) := by
    rw [List.map_map]
    rfl
  have hbz : ∀ i ∈ (procSels sd.images req.images).map
      (fun pr => (entryPathOf (processedDirOf sid) pr, entryName pr)),
      (bytesAt fs2 i.1).isSome := by
    intro i hi
    obtain ⟨pr, hpr, rfl⟩ := List.mem_map.mp hi
    obtain ⟨q, hq⟩ := lastWithName_isSome_of_mem hpr
    have h1 := hlastw (entryName pr) q hq
    show (bytesAt fs2 (entryPathOf (processedDirOf sid) pr)).isSome
    rw [show entryPathOf (processedDirOf sid) pr =
      joinPath (processedDirOf sid) (entryName pr) from rfl]
    rw [bytesAt_congr h1]
    exact hb q (lastWithName_mem hq).1
  obtain ⟨es, hz, hx⟩ := buildZipEntries_spec fs2 _ hbz
  have hzc : buildZipEntries fs2
      (((procSels sd.images req.images).map (mkRenamed (processedDirOf sid))).map
        (fun r => (r.file_path, r.new_name))) = .ok es := by
    rw [hinputs]
    exact hz
  refine ⟨fs2, es, ?_, ?_, ?_⟩
  · simp only [rename_images, renameBody, hs, hloop, hzc, wrapEndpoint]
  · rw [lookupA_fsWrite, if_pos rfl]
  · rw [hx n, lastArc_map (processedDirOf sid) n, hlast]
    show bytesAt fs2 (entryPathOf (processedDirOf sid) pr0) = some d0
    have hn0 : entryName pr0 = n := (lastWithName_mem hlast).2
    have h1 := hlastw n pr0 hlast
    rw [show entryPathOf (processedDirOf sid) pr0 =
      joinPath (processedDirOf sid) (entryName pr0) from rfl]
    rw [hn0, bytesAt_congr h1]
    exact hc

/-- C6 witness: a single selection, archive entry `pretty.jpg` holds the staged
bytes `AAA`. -/
theorem C6_witness :
    lookupA [("s", c6wSd)] "s" = some c6wSd ∧
    (∀ pr ∈ procSels c6wSd.images c6wReq.images, (bytesAt c6wFs pr.2.file_path).isSome) ∧
    (∀ pr ∈ procSels c6wSd.images c6wReq.images, ∀ pr2 ∈ procSels c6wSd.images c6wReq.images,
      pr.2.file_path ≠ entryPathOf (processedDirOf "s") pr2) ∧
    lastWithName "pretty.jpg" (procSels c6wSd.images c6wReq.images) = some c6wPr ∧
    bytesAt c6wFs c6wPr.2.file_path = some "AAA" ∧
    (∃ fs2 entries,
      rename_images c6wFs [("s", c6wSd)] "s" c6wReq =
        .ok (fsWrite fs2 (zipPathOf "s") (.zip entries),
          ("s", { c6wSd with status := "completed", zip_path := some (zipPathOf "s") }) ::
            [("s", c6wSd)],
          ⟨"s", (procSels c6wSd.images c6wReq.images).map (mkRenamed (processedDirOf "s")),
            true⟩) ∧
      lookupA (fsWrite fs2 (zipPathOf "s") (.zip entries)) (zipPathOf "s") =
        some (.zip entries) ∧
      zipExtract "pretty.jpg" entries = some "AAA") :=
  ⟨by decide, by decide, by decide, by decide, by decide,
    C6_amended c6wFs [("s", c6wSd)] "s" "pretty.jpg" c6wSd c6wReq c6wPr "AAA"
      (by decide) (by decide) (by decide) (by decide) (by decide)⟩
